import Mathlib

/-!
Verification of the template-matching and interaction core of
`yys_clicker.py` (screen capture, normalized cross-correlation matcher,
randomized click-point selection, configuration parsing, scan loop).

Modelling conventions:
* Grayscale rasters are `Image` values: a height, a width and a total
  intensity function on row/column indices.
* The live display is a `Screen`: an intensity field sampled by
  `capture_screen`, mirroring `ImageGrab.grab(bbox=...)` followed by the
  grayscale conversion (the capture of region `(left, top, w, h)` reads the
  screen at `(top + row, left + col)`).
* `cv2.matchTemplate` is an external library call; its score matrix is
  modelled by an arbitrary score function `ScoreFn` (image, template, row,
  col to rational score), while `cv2.minMaxLoc` is modelled concretely by
  `minMaxLocMax`: the maximum entry of the score matrix together with its
  first location in raster order (row-major scan, strict improvement).
  The score matrix of `matchTemplate(img, tmpl)` has
  `img.height - tmpl.height + 1` rows and `img.width - tmpl.width + 1`
  columns, one entry per valid alignment.
* Python floats are modelled by rationals; machine integers by `Int`.
* `random.randint(a, b)` (inclusive uniform sampling) is modelled by an
  arbitrary sampler function constrained by `a <= randint a b <= b`;
  `random.uniform` likewise.
* Search regions follow the data-model restriction to non-negative
  coordinates, so `Region` uses natural-number fields here; the raw
  configuration parser (further below) keeps the plain integers produced
  by `int(...)`.
-/

structure Image where
  height : Nat
  width : Nat
  pixel : Nat → Nat → Nat

structure Screen where
  height : Nat
  width : Nat
  pixel : Nat → Nat → Nat

structure Region where
  left : Nat
  top : Nat
  width : Nat
  height : Nat

structure BoundingBox where
  left : Int
  top : Int
  width : Int
  height : Int
  deriving DecidableEq, Repr

/-- Score function standing for the TM_CCOEFF_NORMED correlation of
`cv2.matchTemplate`: given search image, template and an alignment
(row, col), the correlation score at that alignment. -/
abbrev ScoreFn := Image → Image → Nat → Nat → ℚ

/-- Target dataclass as used by the matcher and the scan loop:
name, confidence threshold, optional search region, click margin and the
decoded grayscale template (whose shape caches `template_height` and
`template_width` in the source; here read off the image directly). -/
structure Target where
  name : String
  confidence : ℚ
  search_region : Option Region
  click_margin : Int
  template : Image

/-- Model of `capture_screen(region)`: with no region the full display,
with a region exactly the sub-rectangle `(left, top, left+width, top+height)`. -/
def capture_screen (screen : Screen) (region : Option Region) : Image :=
  match region with
  | none => ⟨screen.height, screen.width, screen.pixel⟩
  | some r => ⟨r.height, r.width, fun row col => screen.pixel (r.top + row) (r.left + col)⟩

/-- Valid alignment positions of the score matrix, in raster order
(row-major), as scanned by `cv2.minMaxLoc`. -/
def rasterPositions (rh rw : Nat) : List (Nat × Nat) :=
  (List.range rh).flatMap (fun r => (List.range rw).map (fun c => (r, c)))

/-- One step of the maximum scan of `cv2.minMaxLoc`: keep the current best
unless the new entry is strictly greater (so the first occurrence of the
maximum in raster order is kept). -/
def minMaxStep (f : Nat → Nat → ℚ) (best : ℚ × Nat × Nat) (p : Nat × Nat) : ℚ × Nat × Nat :=
  if best.1 < f p.1 p.2 then (f p.1 p.2, p) else best

/-- Model of the maximum half of `cv2.minMaxLoc` on an `rh × rw` score
matrix: the maximum value and its first raster-order location. -/
def minMaxLocMax (f : Nat → Nat → ℚ) (rh rw : Nat) : ℚ × Nat × Nat :=
  (rasterPositions rh rw).foldl (minMaxStep f) (f 0 0, (0, 0))

/-- Result of `cv2.minMaxLoc(cv2.matchTemplate(img, tmpl, TM_CCOEFF_NORMED))`
restricted to the maximum and its location. -/
def matchMax (score : ScoreFn) (img tmpl : Image) : ℚ × Nat × Nat :=
  minMaxLocMax (fun r c => score img tmpl r c)
    (img.height - tmpl.height + 1) (img.width - tmpl.width + 1)

/-- Maximum correlation score over all valid alignments. -/
def maxScore (score : ScoreFn) (img tmpl : Image) : ℚ :=
  (matchMax score img tmpl).1

/-- Model of `locate_target(target, confidence)`: capture (at the target
search region), short-circuit to `none` when the capture is smaller than
the template in either axis, otherwise threshold the maximum correlation
score and translate the best alignment back to full-screen coordinates by
the region offset. -/
def locate_target (score : ScoreFn) (screen : Screen) (t : Target) (confidence : ℚ) :
    Option BoundingBox :=
  if (capture_screen screen t.search_region).height < t.template.height ∨
      (capture_screen screen t.search_region).width < t.template.width then
    none
  else
    if (matchMax score (capture_screen screen t.search_region) t.template).1 < confidence then
      none
    else
      some ⟨(match t.search_region with | some r => (r.left : Int) | none => 0) +
              ((matchMax score (capture_screen screen t.search_region) t.template).2.2 : Int),
            (match t.search_region with | some r => (r.top : Int) | none => 0) +
              ((matchMax score (capture_screen screen t.search_region) t.template).2.1 : Int),
            (t.template.width : Int), (t.template.height : Int)⟩

/-- Region-free matcher (spec section 4.3 without a region): locate the
template in a given raster, box coordinates relative to that raster. Used
to state the crop-consistency property. -/
def locate_in_image (score : ScoreFn) (search_image tmpl : Image) (confidence : ℚ) :
    Option BoundingBox :=
  if search_image.height < tmpl.height ∨ search_image.width < tmpl.width then
    none
  else
    if (matchMax score search_image tmpl).1 < confidence then
      none
    else
      some ⟨((matchMax score search_image tmpl).2.2 : Int),
            ((matchMax score search_image tmpl).2.1 : Int),
            (tmpl.width : Int), (tmpl.height : Int)⟩

/-- Crop a raster to a region (the manual crop of the full-screen capture
referred to by the crop-consistency property). -/
def cropImage (img : Image) (r : Region) : Image :=
  ⟨r.height, r.width, fun row col => img.pixel (r.top + row) (r.left + col)⟩

/-- Translate a region-relative box back to full-screen coordinates by
adding the region offset. -/
def translateBox (r : Region) (b : BoundingBox) : BoundingBox :=
  ⟨(r.left : Int) + b.left, (r.top : Int) + b.top, b.width, b.height⟩

/-- Sampling bounds computed by `random_point_within_region(box, margin)`
before the two `random.randint` draws: clamp width/height to at least 1,
cap the margin at `max(dimension // 2 - 1, 0)` per axis, shrink inward,
and fall back to the full extent of an axis when the shrunk interval
degenerates (`min >= max`). Python floor division `//` is `Int.fdiv`. -/
def samplingBounds (box : BoundingBox) (margin : Int) : (Int × Int) × (Int × Int) :=
  let width := max box.width 1
  let height := max box.height 1
  let effective_margin_x := min margin (max (width.fdiv 2 - 1) 0)
  let effective_margin_y := min margin (max (height.fdiv 2 - 1) 0)
  let min_x := box.left + effective_margin_x
  let max_x := box.left + width - effective_margin_x
  let min_y := box.top + effective_margin_y
  let max_y := box.top + height - effective_margin_y
  ((if min_x ≥ max_x then (box.left, box.left + width) else (min_x, max_x)),
   (if min_y ≥ max_y then (box.top, box.top + height) else (min_y, max_y)))

/-- Model of `random_point_within_region(box, margin)`: one inclusive
integer draw per axis on the computed sampling bounds. The `randint`
parameter stands for `random.randint`. -/
def random_point_within_region (randint : Int → Int → Int) (box : BoundingBox) (margin : Int) :
    Int × Int :=
  (randint (samplingBounds box margin).1.1 (samplingBounds box margin).1.2,
   randint (samplingBounds box margin).2.1 (samplingBounds box margin).2.2)

/-- Contract of `random.randint`: for a nonempty interval the draw lies in
it, endpoints included. -/
def ValidRandint (randint : Int → Int → Int) : Prop :=
  ∀ a b : Int, a ≤ b → a ≤ randint a b ∧ randint a b ≤ b

/-- Model of `choose_random(range_pair)`, i.e. `random.uniform(*range_pair)`;
the `uniform` parameter stands for `random.uniform`. -/
def choose_random (uniform : ℚ → ℚ → ℚ) (range_pair : ℚ × ℚ) : ℚ :=
  uniform range_pair.1 range_pair.2

/-- Contract of `random.uniform` on an ordered pair. -/
def ValidUniform (uniform : ℚ → ℚ → ℚ) : Prop :=
  ∀ a b : ℚ, a ≤ b → a ≤ uniform a b ∧ uniform a b ≤ b

/-- Threshold used by one loop iteration of `run`:
`confidence_override or target.confidence` in Python, where a `None` or
`0.0` override falls back to the per-target value (float truthiness). -/
def effective_threshold (override : Option ℚ) (t : Target) : ℚ :=
  match override with
  | none => t.confidence
  | some c => if c = 0 then t.confidence else c

/-- Observable events of one scan pass of `run`. -/
inductive Event where
  | locateEvt (t : Target)
  | clickEvt (t : Target) (box : BoundingBox)
  | sleepEvt (d : ℚ)

/-- Trace of one pass of the `while True` loop of `run` over the target
list: each target is located in list order; on the first hit the click is
performed and the pass ends (`break`); if the list is exhausted with no
hit, the `for ... else` branch sleeps a delay drawn by
`choose_random(scan_interval)`. -/
def passTrace (score : ScoreFn) (screen : Screen) (override : Option ℚ)
    (uniform : ℚ → ℚ → ℚ) (scan_interval : ℚ × ℚ) : List Target → List Event
  | [] => [Event.sleepEvt (choose_random uniform scan_interval)]
  | t :: rest =>
    Event.locateEvt t ::
      (match locate_target score screen t (effective_threshold override t) with
       | some box => [Event.clickEvt t box]
       | none => passTrace score screen override uniform scan_interval rest)

/-- JSON values as produced by `json.loads`: the raw input of the
configuration parser. -/
inductive JsonValue where
  | null
  | bool (b : Bool)
  | num (q : ℚ)
  | str (s : String)
  | arr (elems : List JsonValue)
  | obj (fields : List (String × JsonValue))

/-- Python exceptions relevant to parsing: `ValueError` (caught by `main`
and reported as a configuration error, interpolated values elided from the
messages) and `TypeError` (uncaught, crashes the process). -/
inductive PyError where
  | valueError (msg : String)
  | typeError
  deriving DecidableEq, Repr

deriving instance DecidableEq for Except

/-- Digit list to number, most significant first. -/
def digitsToNat (cs : List Char) : Nat :=
  cs.foldl (fun n c => 10 * n + (c.toNat - 48)) 0

/-- Model of Python `int(string)`: optional sign followed by at least one
digit (whitespace stripping and underscores are not modelled). -/
def parseIntString (s : String) : Option Int :=
  match s.data with
  | '-' :: rest =>
    if !rest.isEmpty && rest.all Char.isDigit then some (-(digitsToNat rest : Int)) else none
  | '+' :: rest =>
    if !rest.isEmpty && rest.all Char.isDigit then some ((digitsToNat rest : Int)) else none
  | cs =>
    if !cs.isEmpty && cs.all Char.isDigit then some ((digitsToNat cs : Int)) else none

/-- Unsigned decimal literal: digits with an optional fractional part, at
least one digit overall. -/
def decimalCore (cs : List Char) : Option ℚ :=
  match cs.dropWhile Char.isDigit with
  | [] =>
    if cs.isEmpty then none else some ((digitsToNat cs : Nat) : ℚ)
  | '.' :: frac =>
    if frac.all Char.isDigit && (!(cs.takeWhile Char.isDigit).isEmpty || !frac.isEmpty) then
      some (((digitsToNat (cs.takeWhile Char.isDigit) : Nat) : ℚ) +
        ((digitsToNat frac : Nat) : ℚ) / ((10 : ℚ) ^ frac.length))
    else none
  | _ => none

/-- Model of Python `float(string)`: optional sign and a plain decimal
literal (exponents, inf/nan and whitespace stripping are not modelled). -/
def parseDecimal (s : String) : Option ℚ :=
  match s.data with
  | '-' :: rest => (decimalCore rest).map (fun q => -q)
  | '+' :: rest => decimalCore rest
  | cs => decimalCore cs

/-- Model of Python `int(x)` on a JSON value: numbers truncate toward zero
(`Int` division of numerator by denominator), booleans become 0/1, digit
strings parse, everything else raises (`TypeError` for non-scalars,
`ValueError` for unparsable strings). Floats are modelled as exact
rationals throughout. -/
def pyInt : JsonValue → Except PyError Int
  | .num q => .ok (Int.tdiv q.num (q.den : Int))
  | .str s =>
    match parseIntString s with
    | some n => .ok n
    | none => .error (.valueError "invalid literal for int with base 10")
  | .bool b => .ok (if b then 1 else 0)
  | _ => .error .typeError

/-- Model of Python `float(x)` on a JSON value. -/
def pyFloat : JsonValue → Except PyError ℚ
  | .num q => .ok q
  | .str s =>
    match parseDecimal s with
    | some q => .ok q
    | none => .error (.valueError "could not convert string to float")
  | .bool b => .ok (if b then 1 else 0)
  | _ => .error .typeError

/-- Python `isinstance(value, Sequence)` view of a JSON value: lists are
sequences of their elements, strings are sequences of one-character
strings; everything else is not a sequence. -/
def seqElems : JsonValue → Option (List JsonValue)
  | .arr xs => some xs
  | .str s => some (s.data.map (fun c => JsonValue.str c.toString))
  | _ => none

/-- Model of `_parse_region(value)`: `None` passes through, a non-sequence
or a sequence whose length is not 4 raises `ValueError`, and otherwise the
four elements go through `int(...)`. -/
def _parse_region (value : JsonValue) : Except PyError (Option (Int × Int × Int × Int)) :=
  match value with
  | .null => .ok none
  | v =>
    match seqElems v with
    | some [a, b, c, d] =>
      match pyInt a with
      | .error e => .error e
      | .ok left =>
        match pyInt b with
        | .error e => .error e
        | .ok top =>
          match pyInt c with
          | .error e => .error e
          | .ok width =>
            match pyInt d with
            | .error e => .error e
            | .ok height => .ok (some (left, top, width, height))
    | _ => .error (.valueError "Region must be a sequence of four integers: left, top, width, height")

/-- Argument passed to `_parse_range` by `from_mapping`: either the raw
JSON value found in the record, or the dataclass default (a Python tuple
of two floats) when the key is absent. -/
inductive RangeArg where
  | defaultPair (low high : ℚ)
  | given (v : JsonValue)

/-- Model of `_parse_range(value, fallback)`: `None` yields the fallback,
a tuple (only ever a well-formed default pair) unpacks directly, any other
value must be a length-2 sequence; both components go through `float(...)`
and `min > max` raises `ValueError`. -/
def _parse_range (value : RangeArg) (fallback : ℚ × ℚ) : Except PyError (ℚ × ℚ) :=
  match value with
  | .defaultPair low high =>
    if low > high then .error (.valueError "Invalid range: min is greater than max")
    else .ok (low, high)
  | .given v =>
    match v with
    | .null => .ok fallback
    | w =>
      match seqElems w with
      | some [a, b] =>
        match pyFloat a with
        | .error e => .error e
        | .ok low =>
          match pyFloat b with
          | .error e => .error e
          | .ok high =>
            if low > high then .error (.valueError "Invalid range: min is greater than max")
            else .ok (low, high)
      | _ => .error (.valueError "Ranges must contain two numeric values: min, max")

/-- Lookup in a JSON object seen as a Python dict: duplicate keys keep the
last occurrence, as in `json.loads`. -/
def dictGet (fields : List (String × JsonValue)) (key : String) : Option JsonValue :=
  (fields.reverse.find? (fun kv => kv.1 == key)).map (fun kv => kv.2)

/-- The `raw.get(key, default_tuple)` argument fed to `_parse_range`. -/
def rangeArg (fields : List (String × JsonValue)) (key : String) (dflt : ℚ × ℚ) : RangeArg :=
  match dictGet fields key with
  | some v => .given v
  | none => .defaultPair dflt.1 dflt.2

/-- Fields of the `Target` dataclass as constructed by
`Target.from_mapping` (template content reduced to its decoded shape,
which is all construction inspects). The raw `name` value is kept as-is:
the source never validates its type. -/
structure TargetConfig where
  name : JsonValue
  image_path : String
  confidence : ℚ
  search_region : Option (Int × Int × Int × Int)
  click_margin : Int
  move_duration_range : ℚ × ℚ
  pre_click_delay_range : ℚ × ℚ
  post_click_delay_range : ℚ × ℚ
  template_height : Nat
  template_width : Nat

/-- Model of `Target.from_mapping(base_dir, raw)` followed by
`__post_init__`/`_load_template`. External effects are injected:
`fileExists` models `Path.exists`, `decode` models
`cv2.imread` + grayscale conversion, returning the template shape or
`none` on an unreadable file. Defaults: confidence 0.85, click margin 6,
ranges (0.3, 0.7), (0.1, 0.4), (0.6, 1.2). Fields are parsed in source
order; the first failure aborts the construction. Path join stands in for
`(base_dir / image).expanduser()`; a non-string image value makes the
path constructor raise `TypeError`. -/
def from_mapping (fileExists : String → Bool) (decode : String → Option (Nat × Nat))
    (base_dir : String) (raw : List (String × JsonValue)) : Except PyError TargetConfig :=
  match dictGet raw "name" with
  | none => .error (.valueError "Target definition missing key: name")
  | some name =>
    match dictGet raw "image" with
    | none => .error (.valueError "Target definition missing key: image")
    | some image =>
      match image with
      | .str imageStr =>
        if fileExists (base_dir ++ "/" ++ imageStr) = false then
          .error (.valueError "Image file not found")
        else
          match (match dictGet raw "confidence" with
                 | some v => pyFloat v
                 | none => .ok (mkRat 17 20)) with
          | .error e => .error e
          | .ok confidence =>
            match _parse_region (match dictGet raw "region" with | some v => v | none => .null) with
            | .error e => .error e
            | .ok search_region =>
              match (match dictGet raw "click_margin" with
                     | some v => pyInt v
                     | none => .ok 6) with
              | .error e => .error e
              | .ok click_margin =>
                match _parse_range (rangeArg raw "move_duration_range" (mkRat 3 10, mkRat 7 10))
                    (mkRat 3 10, mkRat 7 10) with
                | .error e => .error e
                | .ok move_duration_range =>
                  match _parse_range (rangeArg raw "pre_click_delay_range" (mkRat 1 10, mkRat 2 5))
                      (mkRat 1 10, mkRat 2 5) with
                  | .error e => .error e
                  | .ok pre_click_delay_range =>
                    match _parse_range (rangeArg raw "post_click_delay_range" (mkRat 3 5, mkRat 6 5))
                        (mkRat 3 5, mkRat 6 5) with
                    | .error e => .error e
                    | .ok post_click_delay_range =>
                      match decode (base_dir ++ "/" ++ imageStr) with
                      | none => .error (.valueError "Failed to read image file")
                      | some dims =>
                        if dims.1 * dims.2 = 0 then
                          .error (.valueError "Template image is empty")
                        else
                          .ok ⟨name, base_dir ++ "/" ++ imageStr, confidence, search_region,
                               click_margin, move_duration_range, pre_click_delay_range,
                               post_click_delay_range, dims.1, dims.2⟩
      | _ => .error .typeError

/-- Items loop of `load_targets`: each entry must be a JSON object; the
first failing record aborts the whole load. -/
def loadItems (fileExists : String → Bool) (decode : String → Option (Nat × Nat))
    (base_dir : String) : List JsonValue → Except PyError (List TargetConfig)
  | [] => .ok []
  | item :: rest =>
    match item with
    | .obj fields =>
      match from_mapping fileExists decode base_dir fields with
      | .error e => .error e
      | .ok t =>
        match loadItems fileExists decode base_dir rest with
        | .error e => .error e
        | .ok ts => .ok (t :: ts)
    | _ => .error (.valueError "Each target must be a JSON object")

/-- Model of `load_targets(path)` on the parsed JSON document: the
document must be a JSON array of objects. -/
def load_targets (fileExists : String → Bool) (decode : String → Option (Nat × Nat))
    (base_dir : String) (raw_data : JsonValue) : Except PyError (List TargetConfig) :=
  match raw_data with
  | .arr items => loadItems fileExists decode base_dir items
  | _ => .error (.valueError "Target configuration must be a JSON array")

theorem init_le_foldl_minMaxStep (f : Nat → Nat → ℚ) (l : List (Nat × Nat))
    (init : ℚ × Nat × Nat) : init.1 ≤ (l.foldl (minMaxStep f) init).1 := by
  induction l generalizing init with
  | nil => exact le_refl _
  | cons p tl ih =>
    simp only [List.foldl_cons]
    refine le_trans ?_ (ih (minMaxStep f init p))
    unfold minMaxStep
    split
    · exact le_of_lt (by assumption)
    · exact le_refl _

theorem mem_le_foldl_minMaxStep (f : Nat → Nat → ℚ) :
    ∀ (l : List (Nat × Nat)) (init : ℚ × Nat × Nat) (p : Nat × Nat), p ∈ l →
      f p.1 p.2 ≤ (l.foldl (minMaxStep f) init).1 := by
  intro l
  induction l with
  | nil => intro init p hp; cases hp
  | cons q tl ih =>
    intro init p hp
    simp only [List.foldl_cons]
    rcases List.mem_cons.mp hp with h | h
    · subst h
      refine le_trans ?_ (init_le_foldl_minMaxStep f tl (minMaxStep f init p))
      unfold minMaxStep
      split
      · exact le_refl _
      · exact le_of_not_lt (by assumption)
    · exact ih (minMaxStep f init q) p h

theorem foldl_minMaxStep_attained (f : Nat → Nat → ℚ) :
    ∀ (l : List (Nat × Nat)) (init : ℚ × Nat × Nat),
      (l.foldl (minMaxStep f) init).1 = init.1 ∨
        ∃ p ∈ l, (l.foldl (minMaxStep f) init).1 = f p.1 p.2 := by
  intro l
  induction l with
  | nil => intro init; exact Or.inl rfl
  | cons q tl ih =>
    intro init
    simp only [List.foldl_cons]
    by_cases hq : init.1 < f q.1 q.2
    · have hstep : minMaxStep f init q = (f q.1 q.2, q) := by
        unfold minMaxStep; rw [if_pos hq]
      rw [hstep]
      rcases ih (f q.1 q.2, q) with h | ⟨p, hp, h⟩
      · exact Or.inr ⟨q, List.mem_cons_self q tl, h⟩
      · exact Or.inr ⟨p, List.mem_cons_of_mem q hp, h⟩
    · have hstep : minMaxStep f init q = init := by
        unfold minMaxStep; rw [if_neg hq]
      rw [hstep]
      rcases ih init with h | ⟨p, hp, h⟩
      · exact Or.inl h
      · exact Or.inr ⟨p, List.mem_cons_of_mem q hp, h⟩

theorem mem_rasterPositions {rh rw : Nat} {p : Nat × Nat} :
    p ∈ rasterPositions rh rw ↔ p.1 < rh ∧ p.2 < rw := by
  obtain ⟨r, c⟩ := p
  simp only [rasterPositions, List.mem_flatMap, List.mem_map, List.mem_range]
  constructor
  · rintro ⟨a, ha, b, hb, heq⟩
    cases heq
    exact ⟨ha, hb⟩
  · rintro ⟨hr, hc⟩
    exact ⟨r, hr, c, hc, rfl⟩

theorem maxScore_isUpperBound (score : ScoreFn) (img tmpl : Image) (r c : Nat)
    (hr : r ≤ img.height - tmpl.height) (hc : c ≤ img.width - tmpl.width) :
    score img tmpl r c ≤ maxScore score img tmpl := by
  unfold maxScore matchMax minMaxLocMax
  exact mem_le_foldl_minMaxStep _ _ _ (r, c) (mem_rasterPositions.mpr ⟨by omega, by omega⟩)

theorem maxScore_isAttained (score : ScoreFn) (img tmpl : Image) :
    ∃ r c, r ≤ img.height - tmpl.height ∧ c ≤ img.width - tmpl.width ∧
      maxScore score img tmpl = score img tmpl r c := by
  unfold maxScore matchMax minMaxLocMax
  rcases foldl_minMaxStep_attained (fun r c => score img tmpl r c)
      (rasterPositions (img.height - tmpl.height + 1) (img.width - tmpl.width + 1))
      (score img tmpl 0 0, (0, 0)) with h | ⟨p, hp, h⟩
  · exact ⟨0, 0, Nat.zero_le _, Nat.zero_le _, h⟩
  · obtain ⟨h1, h2⟩ := mem_rasterPositions.mp hp
    exact ⟨p.1, p.2, by omega, by omega, h⟩

/-- C1: for every captured grayscale image and a template that fits within
it, `locate_target` returns `none` exactly when the maximum normalized
cross-correlation score over all valid alignments is strictly below the
threshold, and whenever that maximum is at least the threshold it returns
a bounding box whose width and height equal the template dimensions
exactly. The first two conjuncts identify `maxScore` as the true maximum
of the score matrix. -/
theorem locate_target_threshold (score : ScoreFn) (screen : Screen) (t : Target) (conf : ℚ)
    (hh : t.template.height ≤ (capture_screen screen t.search_region).height)
    (hw : t.template.width ≤ (capture_screen screen t.search_region).width) :
    (∃ r c, r ≤ (capture_screen screen t.search_region).height - t.template.height ∧
        c ≤ (capture_screen screen t.search_region).width - t.template.width ∧
        maxScore score (capture_screen screen t.search_region) t.template =
          score (capture_screen screen t.search_region) t.template r c) ∧
    (∀ r c, r ≤ (capture_screen screen t.search_region).height - t.template.height →
        c ≤ (capture_screen screen t.search_region).width - t.template.width →
        score (capture_screen screen t.search_region) t.template r c ≤
          maxScore score (capture_screen screen t.search_region) t.template) ∧
    (locate_target score screen t conf = none ↔
        maxScore score (capture_screen screen t.search_region) t.template < conf) ∧
    (conf ≤ maxScore score (capture_screen screen t.search_region) t.template →
        ∃ b, locate_target score screen t conf = some b ∧
          b.width = (t.template.width : Int) ∧ b.height = (t.template.height : Int)) := by
  have hguard : ¬((capture_screen screen t.search_region).height < t.template.height ∨
      (capture_screen screen t.search_region).width < t.template.width) := by
    push_neg
    exact ⟨hh, hw⟩
  refine ⟨maxScore_isAttained score _ t.template,
    fun r c hr hc => maxScore_isUpperBound score _ t.template r c hr hc, ?_, ?_⟩
  · unfold locate_target
    rw [if_neg hguard]
    by_cases hlt : (matchMax score (capture_screen screen t.search_region) t.template).1 < conf
    · rw [if_pos hlt]
      exact iff_of_true rfl hlt
    · rw [if_neg hlt]
      refine ⟨fun h => ?_, fun h => absurd h hlt⟩
      simp at h
  · intro hge
    have hge2 : ¬((matchMax score (capture_screen screen t.search_region) t.template).1 < conf) :=
      not_lt.mpr hge
    unfold locate_target
    rw [if_neg hguard, if_neg hge2]
    exact ⟨_, rfl, rfl, rfl⟩

/-- Witness for C1: a 2 by 2 capture, a 1 by 1 template, constant score 1
and threshold 1; the hypotheses hold and the match is accepted with a box
of the template dimensions. -/
theorem locate_target_threshold_witness :
    ∃ b, locate_target (fun _ _ _ _ => (1 : ℚ)) ⟨2, 2, fun _ _ => 0⟩
        ⟨"w", 1, none, 6, ⟨1, 1, fun _ _ => 0⟩⟩ 1 = some b ∧
        b.width = 1 ∧ b.height = 1 :=
  (locate_target_threshold (fun _ _ _ _ => (1 : ℚ)) ⟨2, 2, fun _ _ => 0⟩
    ⟨"w", 1, none, 6, ⟨1, 1, fun _ _ => 0⟩⟩ 1 (by decide) (by decide)).2.2.2 (by decide)

/-- C2: whenever the capture is smaller than the template in either
dimension, `locate_target` short-circuits to `none` (and, being a total
function of the model, never raises). -/
theorem locate_target_small_capture (score : ScoreFn) (screen : Screen) (t : Target) (conf : ℚ)
    (h : (capture_screen screen t.search_region).height < t.template.height ∨
         (capture_screen screen t.search_region).width < t.template.width) :
    locate_target score screen t conf = none := by
  unfold locate_target
  rw [if_pos h]

/-- Witness for C2: a 1 by 1 capture and a 2 by 2 template give `none`
even though the score is everywhere above the threshold. -/
theorem locate_target_small_capture_witness :
    locate_target (fun _ _ _ _ => (1 : ℚ)) ⟨1, 1, fun _ _ => 0⟩
      ⟨"w", 1, none, 6, ⟨2, 2, fun _ _ => 0⟩⟩ (mkRat 1 2) = none :=
  locate_target_small_capture (fun _ _ _ _ => (1 : ℚ)) ⟨1, 1, fun _ _ => 0⟩
    ⟨"w", 1, none, 6, ⟨2, 2, fun _ _ => 0⟩⟩ (mkRat 1 2) (Or.inl (by decide))

/-- C3: for every target with a search region, the region-restricted
search (whose result `locate_target` already translates back to
full-screen coordinates by adding the region offset) equals cropping the
full-screen capture to that region, matching there, and adding the region
offset to the resulting box. -/
theorem locate_target_region_crop (score : ScoreFn) (screen : Screen) (name : String)
    (tconf : ℚ) (margin : Int) (tmpl : Image) (reg : Region) (conf : ℚ) :
    locate_target score screen ⟨name, tconf, some reg, margin, tmpl⟩ conf =
      Option.map (translateBox reg)
        (locate_in_image score (cropImage (capture_screen screen none) reg) tmpl conf) := by
  have himg : cropImage (capture_screen screen none) reg = capture_screen screen (some reg) := rfl
  rw [himg]
  unfold locate_target locate_in_image
  dsimp only
  split_ifs
  · rfl
  · rfl
  · rfl

theorem fdiv_two_bounds (w : ℤ) : 2 * w.fdiv 2 ≤ w ∧ w ≤ 2 * w.fdiv 2 + 1 := by
  rw [Int.fdiv_eq_ediv] <;> omega

theorem samplingBounds_eq_of_nonneg (box : BoundingBox) (margin : Int) (_hm : 0 ≤ margin)
    (hw : 1 ≤ box.width) (hh : 1 ≤ box.height) :
    samplingBounds box margin =
      ((box.left + min margin (max (box.width.fdiv 2 - 1) 0),
        box.left + box.width - min margin (max (box.width.fdiv 2 - 1) 0)),
       (box.top + min margin (max (box.height.fdiv 2 - 1) 0),
        box.top + box.height - min margin (max (box.height.fdiv 2 - 1) 0))) := by
  have hx := fdiv_two_bounds box.width
  have hy := fdiv_two_bounds box.height
  have hwm : max box.width 1 = box.width := max_eq_left hw
  have hhm : max box.height 1 = box.height := max_eq_left hh
  simp only [samplingBounds, hwm, hhm]
  rw [if_neg (by omega), if_neg (by omega)]

theorem samplingBounds_margin_eq (box : BoundingBox) (margin : Int) (hm : 0 ≤ margin)
    (hwid : 2 * margin + 2 ≤ box.width) (hhei : 2 * margin + 2 ≤ box.height) :
    samplingBounds box margin =
      ((box.left + margin, box.left + box.width - margin),
       (box.top + margin, box.top + box.height - margin)) := by
  have hx := fdiv_two_bounds box.width
  have hy := fdiv_two_bounds box.height
  rw [samplingBounds_eq_of_nonneg box margin hm (by omega) (by omega)]
  have e1 : min margin (max (box.width.fdiv 2 - 1) 0) = margin := by omega
  have e2 : min margin (max (box.height.fdiv 2 - 1) 0) = margin := by omega
  rw [e1, e2]

/-- C4 (amended): for every box with width and height at least
2 * margin + 2 and margin at least 0, the effective margin equals the
requested margin on both axes, and every sampled point lies within the
closed margin-shrunk rectangle (its boundary included; the boundary is
attainable, so the point is not always strictly inside that rectangle,
though for positive margins it is strictly inside the original box). -/
theorem random_point_within_margin (randint : Int → Int → Int) (hrand : ValidRandint randint)
    (box : BoundingBox) (margin : Int) (hm : 0 ≤ margin)
    (hwid : 2 * margin + 2 ≤ box.width) (hhei : 2 * margin + 2 ≤ box.height) :
    samplingBounds box margin =
      ((box.left + margin, box.left + box.width - margin),
       (box.top + margin, box.top + box.height - margin)) ∧
    box.left + margin ≤ (random_point_within_region randint box margin).1 ∧
    (random_point_within_region randint box margin).1 ≤ box.left + box.width - margin ∧
    box.top + margin ≤ (random_point_within_region randint box margin).2 ∧
    (random_point_within_region randint box margin).2 ≤ box.top + box.height - margin := by
  have hb := samplingBounds_margin_eq box margin hm hwid hhei
  have h1 := hrand (box.left + margin) (box.left + box.width - margin) (by omega)
  have h2 := hrand (box.top + margin) (box.top + box.height - margin) (by omega)
  unfold random_point_within_region
  rw [hb]
  exact ⟨rfl, h1.1, h1.2, h2.1, h2.2⟩

/-- Witness for C4 (amended) at box (0, 0, 4, 4), margin 1, with the
sampler that returns the lower endpoint. -/
theorem random_point_within_margin_witness :
    samplingBounds ⟨0, 0, 4, 4⟩ 1 = ((0 + 1, 0 + 4 - 1), (0 + 1, 0 + 4 - 1)) ∧
    (0 : ℤ) + 1 ≤ (random_point_within_region (fun a _ => a) ⟨0, 0, 4, 4⟩ 1).1 ∧
    (random_point_within_region (fun a _ => a) ⟨0, 0, 4, 4⟩ 1).1 ≤ 0 + 4 - 1 ∧
    (0 : ℤ) + 1 ≤ (random_point_within_region (fun a _ => a) ⟨0, 0, 4, 4⟩ 1).2 ∧
    (random_point_within_region (fun a _ => a) ⟨0, 0, 4, 4⟩ 1).2 ≤ 0 + 4 - 1 :=
  random_point_within_margin (fun a _ => a) (fun a _ h => ⟨le_refl a, h⟩) ⟨0, 0, 4, 4⟩ 1
    (by decide) (by decide) (by decide)

/-- C4 counterexample: the claim as stated ("strictly inside the
margin-shrunk rectangle") is false, because the inclusive `randint` draw
can return the boundary of the shrunk rectangle. With the legitimate
sampler that always returns the lower endpoint, box (0, 0, 4, 4) and
margin 1 (which satisfies both size conditions), the point is (1, 1) and
its x coordinate is not strictly greater than left + margin = 1. -/
theorem random_point_strict_cex :
    ValidRandint (fun a _ => a) ∧
    random_point_within_region (fun a _ => a) ⟨0, 0, 4, 4⟩ 1 = (1, 1) ∧
    ¬((0 : ℤ) + 1 < (random_point_within_region (fun a _ => a) ⟨0, 0, 4, 4⟩ 1).1) :=
  ⟨fun a _ h => ⟨le_refl a, h⟩, by decide, by decide⟩

/-- C5: for every box too small for the requested margin on an axis (the
margin-shrunk rectangle would degenerate there: the dimension is below
2 * margin + 2), every sampled point lies within the original box bounds,
inclusive, on that axis (the coordinate interval [left, left + width],
resp. [top, top + height]). -/
theorem random_point_degenerate (randint : Int → Int → Int) (hrand : ValidRandint randint)
    (box : BoundingBox) (margin : Int) (hm : 0 ≤ margin)
    (hw : 1 ≤ box.width) (hh : 1 ≤ box.height) :
    (box.width < 2 * margin + 2 →
      box.left ≤ (random_point_within_region randint box margin).1 ∧
      (random_point_within_region randint box margin).1 ≤ box.left + box.width) ∧
    (box.height < 2 * margin + 2 →
      box.top ≤ (random_point_within_region randint box margin).2 ∧
      (random_point_within_region randint box margin).2 ≤ box.top + box.height) := by
  have hb := samplingBounds_eq_of_nonneg box margin hm hw hh
  have hx := fdiv_two_bounds box.width
  have hy := fdiv_two_bounds box.height
  have h1 := hrand (box.left + min margin (max (box.width.fdiv 2 - 1) 0))
    (box.left + box.width - min margin (max (box.width.fdiv 2 - 1) 0)) (by omega)
  have h2 := hrand (box.top + min margin (max (box.height.fdiv 2 - 1) 0))
    (box.top + box.height - min margin (max (box.height.fdiv 2 - 1) 0)) (by omega)
  unfold random_point_within_region
  rw [hb]
  dsimp only
  exact ⟨fun _ => ⟨by omega, by omega⟩, fun _ => ⟨by omega, by omega⟩⟩

/-- Witness for C5 at box (0, 0, 3, 5) and margin 2 (both dimensions below
2 * 2 + 2 = 6, so the naive margin-shrunk rectangle degenerates on both
axes), with the lower-endpoint sampler: the point stays inside the
original box bounds. -/
theorem random_point_degenerate_witness :
    (0 : ℤ) ≤ (random_point_within_region (fun a _ => a) ⟨0, 0, 3, 5⟩ 2).1 ∧
    (random_point_within_region (fun a _ => a) ⟨0, 0, 3, 5⟩ 2).1 ≤ 0 + 3 ∧
    (0 : ℤ) ≤ (random_point_within_region (fun a _ => a) ⟨0, 0, 3, 5⟩ 2).2 ∧
    (random_point_within_region (fun a _ => a) ⟨0, 0, 3, 5⟩ 2).2 ≤ 0 + 5 := by
  have h := random_point_degenerate (fun a _ => a) (fun a _ hab => ⟨le_refl a, hab⟩)
    ⟨0, 0, 3, 5⟩ 2 (by decide) (by decide) (by decide)
  exact ⟨(h.1 (by decide)).1, (h.1 (by decide)).2, (h.2 (by decide)).1, (h.2 (by decide)).2⟩

/-- C10 (amended): for every box with positive width and height and every
margin at least 0, the two sampling intervals are nonempty (the function
never fails) and the returned point satisfies
left <= x <= left + width and top <= y <= top + height; however the upper
endpoint left + width (resp. top + height) is attainable (equals the upper
sampling bound) exactly when the effective margin on that axis is zero,
i.e. when margin = 0 or the dimension is at most 3 - in particular for
1 by 1 boxes, but not in general. -/
theorem random_point_box_bounds (randint : Int → Int → Int) (hrand : ValidRandint randint)
    (box : BoundingBox) (margin : Int) (hm : 0 ≤ margin)
    (hw : 1 ≤ box.width) (hh : 1 ≤ box.height) :
    ((samplingBounds box margin).1.1 < (samplingBounds box margin).1.2 ∧
      (samplingBounds box margin).2.1 < (samplingBounds box margin).2.2) ∧
    (box.left ≤ (random_point_within_region randint box margin).1 ∧
      (random_point_within_region randint box margin).1 ≤ box.left + box.width) ∧
    (box.top ≤ (random_point_within_region randint box margin).2 ∧
      (random_point_within_region randint box margin).2 ≤ box.top + box.height) ∧
    ((random_point_within_region randint box margin).1 ≤ (samplingBounds box margin).1.2 ∧
      (random_point_within_region randint box margin).2 ≤ (samplingBounds box margin).2.2) ∧
    ((samplingBounds box margin).1.2 = box.left + box.width ↔ margin = 0 ∨ box.width ≤ 3) ∧
    ((samplingBounds box margin).2.2 = box.top + box.height ↔ margin = 0 ∨ box.height ≤ 3) := by
  have hb := samplingBounds_eq_of_nonneg box margin hm hw hh
  have hx := fdiv_two_bounds box.width
  have hy := fdiv_two_bounds box.height
  have h1 := hrand (box.left + min margin (max (box.width.fdiv 2 - 1) 0))
    (box.left + box.width - min margin (max (box.width.fdiv 2 - 1) 0)) (by omega)
  have h2 := hrand (box.top + min margin (max (box.height.fdiv 2 - 1) 0))
    (box.top + box.height - min margin (max (box.height.fdiv 2 - 1) 0)) (by omega)
  unfold random_point_within_region
  rw [hb]
  dsimp only
  refine ⟨⟨by omega, by omega⟩, ⟨by omega, by omega⟩, ⟨by omega, by omega⟩,
    ⟨by omega, by omega⟩, by constructor <;> intro <;> omega,
    by constructor <;> intro <;> omega⟩

/-- Witness for C10 (amended) at the 1 by 1 box (0, 0, 1, 1) with the
default margin 6 and the upper-endpoint sampler: the point is within
bounds and the upper endpoints are attainable (dimension at most 3). -/
theorem random_point_box_bounds_witness :
    (((samplingBounds ⟨0, 0, 1, 1⟩ 6).1.1 < (samplingBounds ⟨0, 0, 1, 1⟩ 6).1.2 ∧
      (samplingBounds ⟨0, 0, 1, 1⟩ 6).2.1 < (samplingBounds ⟨0, 0, 1, 1⟩ 6).2.2) ∧
    ((0 : ℤ) ≤ (random_point_within_region (fun _ b => b) ⟨0, 0, 1, 1⟩ 6).1 ∧
      (random_point_within_region (fun _ b => b) ⟨0, 0, 1, 1⟩ 6).1 ≤ 0 + 1) ∧
    ((0 : ℤ) ≤ (random_point_within_region (fun _ b => b) ⟨0, 0, 1, 1⟩ 6).2 ∧
      (random_point_within_region (fun _ b => b) ⟨0, 0, 1, 1⟩ 6).2 ≤ 0 + 1) ∧
    ((random_point_within_region (fun _ b => b) ⟨0, 0, 1, 1⟩ 6).1 ≤
        (samplingBounds ⟨0, 0, 1, 1⟩ 6).1.2 ∧
      (random_point_within_region (fun _ b => b) ⟨0, 0, 1, 1⟩ 6).2 ≤
        (samplingBounds ⟨0, 0, 1, 1⟩ 6).2.2) ∧
    ((samplingBounds ⟨0, 0, 1, 1⟩ 6).1.2 = 0 + 1 ↔ (6 : ℤ) = 0 ∨ (1 : ℤ) ≤ 3) ∧
    ((samplingBounds ⟨0, 0, 1, 1⟩ 6).2.2 = 0 + 1 ↔ (6 : ℤ) = 0 ∨ (1 : ℤ) ≤ 3)) :=
  random_point_box_bounds (fun _ b => b) (fun _ b h => ⟨h, le_refl b⟩) ⟨0, 0, 1, 1⟩ 6
    (by decide) (by decide) (by decide)

/-- C10 counterexample: the upper endpoint left + width is NOT attainable
for every box: at box (0, 0, 6, 6) with margin 6 the effective margin is
2, the upper x sampling bound is 4, and even the sampler that always
returns the upper endpoint yields the point (4, 4), strictly short of
left + width = 6. -/
theorem random_point_upper_cex :
    ValidRandint (fun _ b => b) ∧
    random_point_within_region (fun _ b => b) ⟨0, 0, 6, 6⟩ 6 = (4, 4) ∧
    (samplingBounds ⟨0, 0, 6, 6⟩ 6).1.2 = 4 ∧ (4 : ℤ) < 0 + 6 :=
  ⟨fun _ b h => ⟨h, le_refl b⟩, by decide, by decide, by decide⟩

theorem passTrace_all_none (score : ScoreFn) (screen : Screen) (override : Option ℚ)
    (uniform : ℚ → ℚ → ℚ) (si : ℚ × ℚ) :
    ∀ ts : List Target,
      (∀ t ∈ ts, locate_target score screen t (effective_threshold override t) = none) →
      passTrace score screen override uniform si ts =
        ts.map Event.locateEvt ++ [Event.sleepEvt (choose_random uniform si)] := by
  intro ts
  induction ts with
  | nil => intro _; rfl
  | cons t rest ih =>
    intro h
    have ht := h t (List.mem_cons_self t rest)
    have ih2 := ih (fun u hu => h u (List.mem_cons_of_mem t hu))
    simp only [passTrace, ht, List.map_cons, List.cons_append]
    rw [ih2]

theorem passTrace_first_match (score : ScoreFn) (screen : Screen) (override : Option ℚ)
    (uniform : ℚ → ℚ → ℚ) (si : ℚ × ℚ) :
    ∀ (ts1 : List Target) (t : Target) (ts2 : List Target) (box : BoundingBox),
      (∀ u ∈ ts1, locate_target score screen u (effective_threshold override u) = none) →
      locate_target score screen t (effective_threshold override t) = some box →
      passTrace score screen override uniform si (ts1 ++ t :: ts2) =
        ts1.map Event.locateEvt ++ [Event.locateEvt t, Event.clickEvt t box] := by
  intro ts1
  induction ts1 with
  | nil =>
    intro t ts2 box _ ht
    simp only [List.nil_append, passTrace, ht, List.map_nil]
  | cons u rest ih =>
    intro t ts2 box h ht
    have hu := h u (List.mem_cons_self u rest)
    have ih2 := ih t ts2 box (fun v hv => h v (List.mem_cons_of_mem u hv)) ht
    simp only [List.cons_append, passTrace, hu, List.map_cons, List.append_eq]
    rw [ih2]

/-- C6: in every scan pass the targets are examined in their configured
list order; on the first target whose locate succeeds the click is
performed and the pass ends immediately, so later-listed targets
contribute no events at all that pass (even if they would also match); if
no target matches after exhausting the list, the pass ends with a single
sleep of a randomized idle delay drawn from the scan-interval range. -/
theorem scan_pass_first_match_priority (score : ScoreFn) (screen : Screen) (override : Option ℚ)
    (uniform : ℚ → ℚ → ℚ) (huni : ValidUniform uniform) (si : ℚ × ℚ) (hsi : si.1 ≤ si.2) :
    (∀ (ts1 : List Target) (t : Target) (ts2 : List Target) (box : BoundingBox),
      (∀ u ∈ ts1, locate_target score screen u (effective_threshold override u) = none) →
      locate_target score screen t (effective_threshold override t) = some box →
      passTrace score screen override uniform si (ts1 ++ t :: ts2) =
        ts1.map Event.locateEvt ++ [Event.locateEvt t, Event.clickEvt t box]) ∧
    (∀ ts : List Target,
      (∀ t ∈ ts, locate_target score screen t (effective_threshold override t) = none) →
      passTrace score screen override uniform si ts =
        ts.map Event.locateEvt ++ [Event.sleepEvt (choose_random uniform si)] ∧
      si.1 ≤ choose_random uniform si ∧ choose_random uniform si ≤ si.2) :=
  ⟨passTrace_first_match score screen override uniform si,
   fun ts h => ⟨passTrace_all_none score screen override uniform si ts h,
     (huni si.1 si.2 hsi).1, (huni si.1 si.2 hsi).2⟩⟩

/-- Witness for C6: three targets A, B, C on a 4 by 4 screen with a score
that accepts exactly 2 by 2 templates; A (3 by 3) misses, B and C (both
2 by 2) would match, but the pass stops at B: the trace is locate A,
locate B, click B, with C never evaluated. With A alone nothing matches
and the pass sleeps a delay inside the scan interval. -/
theorem scan_pass_first_match_priority_witness :
    passTrace (fun _ tmpl _ _ => if tmpl.height = 2 then (1 : ℚ) else 0) ⟨4, 4, fun _ _ => 0⟩
        none (fun a _ => a) (mkRat 3 10, mkRat 3 5)
        [⟨"A", mkRat 1 2, none, 6, ⟨3, 3, fun _ _ => 0⟩⟩,
         ⟨"B", mkRat 1 2, none, 6, ⟨2, 2, fun _ _ => 0⟩⟩,
         ⟨"C", mkRat 1 2, none, 6, ⟨2, 2, fun _ _ => 0⟩⟩] =
      [Event.locateEvt ⟨"A", mkRat 1 2, none, 6, ⟨3, 3, fun _ _ => 0⟩⟩,
       Event.locateEvt ⟨"B", mkRat 1 2, none, 6, ⟨2, 2, fun _ _ => 0⟩⟩,
       Event.clickEvt ⟨"B", mkRat 1 2, none, 6, ⟨2, 2, fun _ _ => 0⟩⟩ ⟨0, 0, 2, 2⟩] ∧
    passTrace (fun _ tmpl _ _ => if tmpl.height = 2 then (1 : ℚ) else 0) ⟨4, 4, fun _ _ => 0⟩
        none (fun a _ => a) (mkRat 3 10, mkRat 3 5)
        [⟨"A", mkRat 1 2, none, 6, ⟨3, 3, fun _ _ => 0⟩⟩] =
      [Event.locateEvt ⟨"A", mkRat 1 2, none, 6, ⟨3, 3, fun _ _ => 0⟩⟩,
       Event.sleepEvt (choose_random (fun a _ => a) (mkRat 3 10, mkRat 3 5))] ∧
    mkRat 3 10 ≤ choose_random (fun a _ => a) (mkRat 3 10, mkRat 3 5) ∧
    choose_random (fun a _ => a) (mkRat 3 10, mkRat 3 5) ≤ mkRat 3 5 := by
  have h := scan_pass_first_match_priority
    (fun _ tmpl _ _ => if tmpl.height = 2 then (1 : ℚ) else 0) ⟨4, 4, fun _ _ => 0⟩
    none (fun a _ => a) (fun a _ hab => ⟨le_refl a, hab⟩) (mkRat 3 10, mkRat 3 5) (by decide)
  have h1 := h.1 [⟨"A", mkRat 1 2, none, 6, ⟨3, 3, fun _ _ => 0⟩⟩]
    ⟨"B", mkRat 1 2, none, 6, ⟨2, 2, fun _ _ => 0⟩⟩
    [⟨"C", mkRat 1 2, none, 6, ⟨2, 2, fun _ _ => 0⟩⟩] ⟨0, 0, 2, 2⟩
    (by
      intro u hu
      rw [List.mem_singleton] at hu
      subst hu
      decide)
    (by decide)
  have h2 := h.2 [⟨"A", mkRat 1 2, none, 6, ⟨3, 3, fun _ _ => 0⟩⟩]
    (by
      intro u hu
      rw [List.mem_singleton] at hu
      subst hu
      decide)
  exact ⟨h1, h2.1, h2.2.1, h2.2.2⟩

/-- C7: a timing range with min > max is rejected with `ValueError` by
`_parse_range`, and a configuration containing such a range (here as
`move_duration_range`) fails the whole load with that error — at load
time, before any scan loop can start. At use time no check exists:
`choose_random` simply forwards the pair to `random.uniform`. -/
theorem range_min_gt_max_rejected (low high : ℚ) (hlh : high < low) (fb : ℚ × ℚ)
    (fileExists : String → Bool) (decode : String → Option (Nat × Nat))
    (hfe : fileExists "./i.png" = true) (uniform : ℚ → ℚ → ℚ) :
    _parse_range (.given (.arr [.num low, .num high])) fb =
      .error (.valueError "Invalid range: min is greater than max") ∧
    load_targets fileExists decode "."
      (.arr [.obj [("name", .str "t"), ("image", .str "i.png"),
        ("move_duration_range", .arr [.num low, .num high])]]) =
      .error (.valueError "Invalid range: min is greater than max") ∧
    choose_random uniform (low, high) = uniform low high := by
  have hfe2 : fileExists ("." ++ "/" ++ "i.png") = true := hfe
  have hpr : _parse_range (.given (.arr [.num low, .num high])) (mkRat 3 10, mkRat 7 10) =
      .error (.valueError "Invalid range: min is greater than max") := by
    simp only [_parse_range, seqElems, pyFloat]
    rw [if_pos hlh]
  refine ⟨?_, ?_, rfl⟩
  · simp only [_parse_range, seqElems, pyFloat]
    rw [if_pos hlh]
  · have e_name : dictGet [("name", JsonValue.str "t"), ("image", JsonValue.str "i.png"),
        ("move_duration_range", JsonValue.arr [.num low, .num high])] "name" =
        some (.str "t") := rfl
    have e_image : dictGet [("name", JsonValue.str "t"), ("image", JsonValue.str "i.png"),
        ("move_duration_range", JsonValue.arr [.num low, .num high])] "image" =
        some (.str "i.png") := rfl
    have e_conf : dictGet [("name", JsonValue.str "t"), ("image", JsonValue.str "i.png"),
        ("move_duration_range", JsonValue.arr [.num low, .num high])] "confidence" = none := rfl
    have e_region : dictGet [("name", JsonValue.str "t"), ("image", JsonValue.str "i.png"),
        ("move_duration_range", JsonValue.arr [.num low, .num high])] "region" = none := rfl
    have e_margin : dictGet [("name", JsonValue.str "t"), ("image", JsonValue.str "i.png"),
        ("move_duration_range", JsonValue.arr [.num low, .num high])] "click_margin" =
        none := rfl
    have e_mdr : rangeArg [("name", JsonValue.str "t"), ("image", JsonValue.str "i.png"),
        ("move_duration_range", JsonValue.arr [.num low, .num high])] "move_duration_range"
        (mkRat 3 10, mkRat 7 10) = .given (.arr [.num low, .num high]) := rfl
    simp only [load_targets, loadItems, from_mapping, e_name, e_image, e_conf, e_region,
      e_margin, e_mdr, hfe2, hpr, _parse_region]
    rfl

/-- Witness for C7 with the range (1, 0): both the range parser and the
whole load reject it, and `choose_random` still draws from the raw pair. -/
theorem range_min_gt_max_rejected_witness :
    _parse_range (.given (.arr [.num 1, .num 0])) (0, 0) =
      .error (.valueError "Invalid range: min is greater than max") ∧
    load_targets (fun _ => true) (fun _ => none) "."
      (.arr [.obj [("name", .str "t"), ("image", .str "i.png"),
        ("move_duration_range", .arr [.num 1, .num 0])]]) =
      .error (.valueError "Invalid range: min is greater than max") ∧
    choose_random (fun a _ => a) ((1 : ℚ), (0 : ℚ)) = 1 :=
  range_min_gt_max_rejected 1 0 (by decide) (0, 0) (fun _ => true) (fun _ => none) rfl
    (fun a _ => a)

/-- C8 (amended): a region value that is given and is not a sequence of
length 4 is rejected with the `ValueError` shown; a length-4 sequence is
not required to hold integers: each element merely has to convert with
`int(...)`, so four numbers are accepted with their values truncated
toward zero. -/
theorem region_shape_and_truncation :
    (∀ v : JsonValue, v ≠ .null → (seqElems v).map List.length ≠ some 4 →
      _parse_region v =
        .error (.valueError
          "Region must be a sequence of four integers: left, top, width, height")) ∧
    (∀ a b c d : ℚ, _parse_region (.arr [.num a, .num b, .num c, .num d]) =
      .ok (some (Int.tdiv a.num (a.den : Int), Int.tdiv b.num (b.den : Int),
        Int.tdiv c.num (c.den : Int), Int.tdiv d.num (d.den : Int)))) := by
  constructor
  · intro v hv hlen
    rcases v with _ | b | q | s | xs | flds
    · exact absurd rfl hv
    · rfl
    · rfl
    · obtain ⟨cs⟩ := s
      rcases cs with _ | ⟨c1, cs⟩
      · rfl
      rcases cs with _ | ⟨c2, cs⟩
      · rfl
      rcases cs with _ | ⟨c3, cs⟩
      · rfl
      rcases cs with _ | ⟨c4, cs⟩
      · rfl
      rcases cs with _ | ⟨c5, cs⟩
      · exact absurd (by simp [seqElems]) hlen
      · rfl
    · rcases xs with _ | ⟨x1, xs⟩
      · rfl
      rcases xs with _ | ⟨x2, xs⟩
      · rfl
      rcases xs with _ | ⟨x3, xs⟩
      · rfl
      rcases xs with _ | ⟨x4, xs⟩
      · rfl
      rcases xs with _ | ⟨x5, xs⟩
      · exact absurd (by simp [seqElems]) hlen
      · rfl
    · rfl
  · intro a b c d
    rfl

/-- Witness for C8 (amended): the two-character string "ab" (a Python
sequence of length 2) is rejected, while the four numbers
(1.5, 2, 3, 4) are accepted and truncate to (1, 2, 3, 4). -/
theorem region_shape_and_truncation_witness :
    _parse_region (.str "ab") =
      .error (.valueError
        "Region must be a sequence of four integers: left, top, width, height") ∧
    _parse_region (.arr [.num (mkRat 3 2), .num 2, .num 3, .num 4]) = .ok (some (1, 2, 3, 4)) := by
  constructor
  · exact region_shape_and_truncation.1 (.str "ab") (fun h => JsonValue.noConfusion h) (by decide)
  · rw [region_shape_and_truncation.2 (mkRat 3 2) 2 3 4]
    decide

/-- C8 counterexample: the claim as stated says any region value that is
not exactly a sequence of 4 integers fails the load with a configuration
error, but the sequence of four numbers (1.5, 2, 3, 4) — not integers —
is accepted by `_parse_region`, which truncates 1.5 to 1. -/
theorem region_float_accepted_cex :
    _parse_region (.arr [.num (mkRat 3 2), .num 2, .num 3, .num 4]) =
      .ok (some (1, 2, 3, 4)) := by
  decide

/-- C9 (amended): the per-target confidence value is converted with
`float(...)` but never range-checked at load time: for every rational c,
a record with confidence c loads successfully and stores exactly c, even
when c lies outside (0, 1]. -/
theorem confidence_not_range_checked (c : ℚ) (fileExists : String → Bool)
    (hfe : fileExists "./i.png" = true) :
    Except.map TargetConfig.confidence
      (from_mapping fileExists (fun _ => some (2, 2)) "."
        [("name", .str "t"), ("image", .str "i.png"), ("confidence", .num c)]) = .ok c := by
  have hfe2 : fileExists ("." ++ "/" ++ "i.png") = true := hfe
  have e_name : dictGet [("name", JsonValue.str "t"), ("image", JsonValue.str "i.png"),
      ("confidence", JsonValue.num c)] "name" = some (.str "t") := rfl
  have e_image : dictGet [("name", JsonValue.str "t"), ("image", JsonValue.str "i.png"),
      ("confidence", JsonValue.num c)] "image" = some (.str "i.png") := rfl
  have e_conf : dictGet [("name", JsonValue.str "t"), ("image", JsonValue.str "i.png"),
      ("confidence", JsonValue.num c)] "confidence" = some (.num c) := rfl
  have e_region : dictGet [("name", JsonValue.str "t"), ("image", JsonValue.str "i.png"),
      ("confidence", JsonValue.num c)] "region" = none := rfl
  have e_margin : dictGet [("name", JsonValue.str "t"), ("image", JsonValue.str "i.png"),
      ("confidence", JsonValue.num c)] "click_margin" = none := rfl
  have e_mdr : rangeArg [("name", JsonValue.str "t"), ("image", JsonValue.str "i.png"),
      ("confidence", JsonValue.num c)] "move_duration_range" (mkRat 3 10, mkRat 7 10) =
      .defaultPair (mkRat 3 10) (mkRat 7 10) := rfl
  have e_pre : rangeArg [("name", JsonValue.str "t"), ("image", JsonValue.str "i.png"),
      ("confidence", JsonValue.num c)] "pre_click_delay_range" (mkRat 1 10, mkRat 2 5) =
      .defaultPair (mkRat 1 10) (mkRat 2 5) := rfl
  have e_post : rangeArg [("name", JsonValue.str "t"), ("image", JsonValue.str "i.png"),
      ("confidence", JsonValue.num c)] "post_click_delay_range" (mkRat 3 5, mkRat 6 5) =
      .defaultPair (mkRat 3 5) (mkRat 6 5) := rfl
  have d1 : _parse_range (.defaultPair (mkRat 3 10) (mkRat 7 10)) (mkRat 3 10, mkRat 7 10) =
      .ok (mkRat 3 10, mkRat 7 10) := by decide
  have d2 : _parse_range (.defaultPair (mkRat 1 10) (mkRat 2 5)) (mkRat 1 10, mkRat 2 5) =
      .ok (mkRat 1 10, mkRat 2 5) := by decide
  have d3 : _parse_range (.defaultPair (mkRat 3 5) (mkRat 6 5)) (mkRat 3 5, mkRat 6 5) =
      .ok (mkRat 3 5, mkRat 6 5) := by decide
  simp only [from_mapping, e_name, e_image, e_conf, e_region, e_margin, e_mdr, e_pre, e_post,
    d1, d2, d3, hfe2, _parse_region, pyFloat]
  rfl

/-- Witness for C9 (amended) at the out-of-range confidence 2. -/
theorem confidence_not_range_checked_witness :
    Except.map TargetConfig.confidence
      (from_mapping (fun _ => true) (fun _ => some (2, 2)) "."
        [("name", .str "t"), ("image", .str "i.png"), ("confidence", .num 2)]) = .ok 2 :=
  confidence_not_range_checked 2 (fun _ => true) rfl

/-- C9 counterexample: the claim as stated says a record whose confidence
lies outside (0, 1] fails the entire load, but a record with confidence 2
loads successfully (only the CLI override is validated in the source, not
the per-target value). -/
theorem confidence_out_of_range_accepted_cex :
    Except.map TargetConfig.confidence
      (from_mapping (fun _ => true) (fun _ => some (2, 2)) "."
        [("name", .str "t"), ("image", .str "i.png"), ("confidence", .num 2)]) = .ok 2 ∧
    ¬((0 : ℚ) < 2 ∧ (2 : ℚ) ≤ 1) := by
  constructor
  · decide
  · decide
